import Mathlib

/-!
Shallow embedding of `super_humanize.py` (HumanizeAI).

The program segments text into sentences with an external NLP toolkit
(spacy), then applies three passes: burstiness analysis (population
variance of per-sentence word counts), linguistic-noise injection
(transition-opener substitution and filler-word insertion), and rhythm
optimization (random merging of adjacent short sentences).

Modelling conventions:
* The external sentence segmenter is an explicit parameter
  `seg : String → List String` (the list of `sent.text` spans).
* Python's process-wide PRNG is modelled by explicit draw streams:
  each random decision the code makes is a field of a `SentDraw`
  (per sentence, for `inject_linguistic_noise`) or a coin `Nat → Bool`
  (per pair, for `optimize_rhythm`).  `random.choice lst` on a draw `d`
  is `lst.getD (d % lst.length)`, `random.randint a b` on a draw `d` is
  `a + d % (b + 1 - a)`, `random.random () < p` is a `Bool` field.
* Python `float` arithmetic is modelled by exact rationals `ℚ`;
  `round(x, 2)` is round-half-to-even at two decimals (`round2`).
* Python strings are Lean `String`s; the character-level helpers work on
  `List Char` (`String.data`).  `str.split()` (split on whitespace runs,
  dropping empty pieces), `str.strip()`, `str.rstrip(".")` and
  `" ".join` are modelled character by character.
-/

namespace HumanizeAI

/-- Python `str.split()` worker: `acc` holds the current word reversed. -/
def pySplitGo (acc : List Char) : List Char → List (List Char)
  | [] => if acc.isEmpty then [] else [acc.reverse]
  | c :: cs =>
    if c.isWhitespace then
      if acc.isEmpty then pySplitGo [] cs else acc.reverse :: pySplitGo [] cs
    else
      pySplitGo (c :: acc) cs

/-- Python `str.split()` on a character list. -/
def pySplitL (l : List Char) : List (List Char) := pySplitGo [] l

/-- Python `str.split()`: whitespace-delimited words of a string. -/
def pySplit (s : String) : List String := (pySplitL s.data).map String.mk

/-- Number of whitespace-delimited words, `len(s.split())`. -/
def wordCount (s : String) : Nat := (pySplit s).length

/-- Python `" ".join` on character lists. -/
def joinL : List (List Char) → List Char
  | [] => []
  | [w] => w
  | w :: ws => w ++ ' ' :: joinL ws

/-- Python `" ".join(ws)`. -/
def joinWords (ws : List String) : String := String.mk (joinL (ws.map String.data))

/-- Python `str.strip()` on a character list. -/
def trimL (l : List Char) : List Char :=
  ((l.dropWhile Char.isWhitespace).reverse.dropWhile Char.isWhitespace).reverse

/-- Python `str.strip()`. -/
def pyTrim (s : String) : String := String.mk (trimL s.data)

/-- Python `s.rstrip(".")`: remove all trailing period characters. -/
def rstripDots (s : String) : String :=
  String.mk ((s.data.reverse.dropWhile (fun c => c = '.')).reverse)

/-- The table `self.transition_variations["addition"]`. -/
def transition_addition : List String :=
  ["Plus,", "And also,", "On top of that,", "Not to mention,"]

/-- The table `self.transition_variations["contrast"]`. -/
def transition_contrast : List String :=
  ["But honestly,", "Though,", "Still,", "On the flip side,"]

/-- The table `self.transition_variations["conclusion"]` (unused by the passes). -/
def transition_conclusion : List String :=
  ["Basically,", "So yeah,", "In short,", "All in all,"]

/-- The table `self.transition_variations["example"]` (unused by the passes). -/
def transition_example : List String :=
  ["Like,", "For instance,", "Say,"]

/-- The table `self.filler_words`. -/
def filler_words : List String :=
  ["literally", "basically", "actually", "honestly", "kind of", "sort of", "just"]

/-- Python `s.startswith(w)`. -/
def pyStartsWith (s w : String) : Bool := w.data.isPrefixOf s.data

/-- Remainder of `s` after the regex `^(w),?\s*` has consumed its match:
drop the opener `w`, one optional comma, then the whitespace run. -/
def dropOpener (w s : String) : List Char :=
  let r := s.data.drop w.data.length
  let r := match r with
    | ',' :: r2 => r2
    | _ => r
  r.dropWhile Char.isWhitespace

/-- Model of `re.sub(r"^(w),?\s*", choice + " ", s)` given that `s` starts with `w`:
the replacement text followed by one space and the unconsumed remainder. -/
def reSub (w choice s : String) : String :=
  String.mk (choice.data ++ ' ' :: dropOpener w s)

/-- Random draws consumed for one sentence inside `inject_linguistic_noise`:
`dAdd`/`dCon` feed `random.choice` on the addition/contrast variant lists,
`fires` is the `random.random() < 0.1` test, `dIdx` feeds
`random.randint(1, len(words) - 1)` and `dChoice` feeds
`random.choice(self.filler_words)`. -/
structure SentDraw where
  dAdd : Nat
  dCon : Nat
  fires : Bool
  dIdx : Nat
  dChoice : Nat

/-- Step 1 of `inject_linguistic_noise` (lines 49–52): break predictable
transitions.  `s.startswith(("Furthermore", "Moreover", "Additionally"))`
triggers `re.sub(r"^(Furthermore|Moreover|Additionally),?\s*", choice + " ", s)`
with a random addition variant; `s.startswith("However")` triggers the
analogous contrast substitution. -/
def transitionStep (dAdd dCon : Nat) (s : String) : String :=
  if pyStartsWith s "Furthermore" then
    reSub "Furthermore" (transition_addition.getD (dAdd % transition_addition.length) "") s
  else if pyStartsWith s "Moreover" then
    reSub "Moreover" (transition_addition.getD (dAdd % transition_addition.length) "") s
  else if pyStartsWith s "Additionally" then
    reSub "Additionally" (transition_addition.getD (dAdd % transition_addition.length) "") s
  else if pyStartsWith s "However" then
    reSub "However" (transition_contrast.getD (dCon % transition_contrast.length) "") s
  else s

/-- The insertion index `random.randint(1, n - 1)` drawn from `d`. -/
def fillerIdx (d n : Nat) : Nat := 1 + d % (n - 1)

/-- Step 2 of `inject_linguistic_noise` (lines 55–60): with probability 0.1
(`fires`), if the sentence has more than 5 words, insert a random filler
word at a random index in `[1, len(words) - 1]` and rejoin with spaces. -/
def fillerStep (fires : Bool) (dIdx dChoice : Nat) (s : String) : String :=
  if fires then
    let words := pySplit s
    if 5 < words.length then
      joinWords (words.insertIdx (fillerIdx dIdx words.length)
        (filler_words.getD (dChoice % filler_words.length) ""))
    else s
  else s

/-- The loop body of `inject_linguistic_noise` for one sentence:
strip, transition substitution, then occasional filler insertion. -/
def injectSentence (d : SentDraw) (sent : String) : String :=
  fillerStep d.fires d.dIdx d.dChoice (transitionStep d.dAdd d.dCon (pyTrim sent))

/-- The pass `inject_linguistic_noise` on the segmented sentences, with `draws i`
the random draws consumed for sentence `i`; output rejoined with " ". -/
def inject_linguistic_noise (draws : Nat → SentDraw) (sents : List String) : String :=
  joinWords (sents.enum.map (fun p => injectSentence (draws p.1) p.2))

/-- The cursor loop of `optimize_rhythm` (lines 75–84): at position `i`,
merge the current (stripped) sentence with the next when both have fewer
than 10 words and the coin (`random.random() < 0.3`) lands true, advancing
by 2; otherwise emit the current sentence and advance by 1. -/
def optLoop (coins : Nat → Bool) : Nat → List String → List String
  | _, [] => []
  | _, [s] => [pyTrim s]
  | i, s :: t :: rest =>
    let curr := pyTrim s
    if wordCount curr < 10 && wordCount t < 10 && coins i then
      (rstripDots curr ++ ", and " ++ pyTrim t) :: optLoop coins (i + 2) rest
    else
      curr :: optLoop coins (i + 1) (t :: rest)

/-- The pass `optimize_rhythm`: `text` is the raw input, `sents` its segmentation;
fewer than 2 sentences returns the input text unchanged, otherwise the
merged units are rejoined with " ". -/
def optimize_rhythm (coins : Nat → Bool) (text : String) (sents : List String) : String :=
  if sents.length < 2 then text else joinWords (optLoop coins 0 sents)

/-- The pass `analyze_burstiness`: population variance of per-sentence word counts,
0 when there are no sentences. -/
def analyze_burstiness (sents : List String) : ℚ :=
  let lengths := sents.map wordCount
  if lengths.isEmpty then 0
  else
    let mean : ℚ := (lengths.sum : ℚ) / lengths.length
    (lengths.map (fun x => ((x : ℚ) - mean) ^ 2)).sum / lengths.length

/-- Round-half-to-even to an integer (Python `round`'s tie rule). -/
def rhe (q : ℚ) : ℤ :=
  let f := ⌊q⌋
  let r := q - f
  if r < 1 / 2 then f
  else if 1 / 2 < r then f + 1
  else if f % 2 = 0 then f else f + 1

/-- Python `round(q, 2)` in exact rational arithmetic. -/
def round2 (q : ℚ) : ℚ := (rhe (100 * q) : ℚ) / 100

/-- The `metrics` record of the result dictionary. -/
structure Metrics where
  initial_burstiness : ℚ
  final_burstiness : ℚ
  improvement : ℚ
deriving DecidableEq

/-- The result dictionary returned by `process`. -/
structure PyResult where
  humanized : String
  metrics : Metrics
deriving DecidableEq

/-- The entry point `process`: analyze, inject noise, optimize rhythm, analyze again, and
package rounded metrics.  `seg` is the external sentence segmenter, applied
exactly where the source calls `nlp(...)`. -/
def process (seg : String → List String) (draws : Nat → SentDraw) (coins : Nat → Bool)
    (text : String) : PyResult :=
  let ib := analyze_burstiness (seg text)
  let p1 := inject_linguistic_noise draws (seg text)
  let p2 := optimize_rhythm coins p1 (seg p1)
  let fb := analyze_burstiness (seg p2)
  { humanized := p2,
    metrics :=
      { initial_burstiness := round2 ib,
        final_burstiness := round2 fb,
        improvement := round2 (fb - ib) } }

/-! ### Spec-side definitions

These follow the wording of the specification (mean and population
variance of number lists), to be compared with `analyze_burstiness`. -/

/-- Modelled from the spec: the arithmetic mean of a list of rationals
(0 for the empty list, as `0 / 0 = 0` in `ℚ`). -/
def listMean (l : List ℚ) : ℚ := l.sum / l.length

/-- Modelled from the spec: population variance
`mean((count_i - mean)^2)`, dividing by `N` rather than `N - 1`. -/
def popVariance (l : List ℚ) : ℚ := listMean (l.map (fun x => (x - listMean l) ^ 2))

/-- Cast a list of word counts to rationals. -/
def natsToRats (L : List ℕ) : List ℚ := L.map (Nat.cast : ℕ → ℚ)

/-- The test `s.startswith(("Furthermore", "Moreover", "Additionally"))` or
`s.startswith("However")`: does any transition substitution trigger on `s`? -/
def hasTransitionTrigger (s : String) : Bool :=
  pyStartsWith s "Furthermore" || pyStartsWith s "Moreover" ||
    pyStartsWith s "Additionally" || pyStartsWith s "However"

/-! ### Helper lemmas about the word splitter and joiner -/

theorem pySplitGo_append_space (r : List Char) :
    ∀ (a acc : List Char), pySplitGo acc (a ++ ' ' :: r) = pySplitGo acc a ++ pySplitGo [] r := by
  intro a
  induction a with
  | nil =>
    intro acc
    by_cases h : acc.isEmpty <;> simp [pySplitGo, h]
  | cons c cs ih =>
    intro acc
    by_cases hc : c.isWhitespace
    · by_cases h : acc.isEmpty <;> simp [pySplitGo, hc, h, ih]
    · simp [pySplitGo, hc, ih]

theorem pySplitGo_word (w : List Char) (hw : ∀ c ∈ w, c.isWhitespace = false) :
    ∀ acc : List Char,
      pySplitGo acc w = if acc.isEmpty && w.isEmpty then [] else [acc.reverse ++ w] := by
  induction w with
  | nil =>
    intro acc
    by_cases h : acc.isEmpty <;> simp [pySplitGo, h]
  | cons c cs ih =>
    intro acc
    have hc : c.isWhitespace = false := hw c (by simp)
    have ih' := ih (fun d hd => hw d (by simp [hd]))
    simp [pySplitGo, hc, ih' (c :: acc)]

theorem pySplitGo_words_good :
    ∀ (l acc : List Char), (∀ c ∈ acc, c.isWhitespace = false) →
      ∀ w ∈ pySplitGo acc l, w ≠ [] ∧ ∀ c ∈ w, c.isWhitespace = false := by
  intro l
  induction l with
  | nil =>
    intro acc hacc w hw
    by_cases h : acc.isEmpty
    · simp [pySplitGo, h] at hw
    · simp [pySplitGo, h] at hw
      subst hw
      constructor
      · simpa [List.isEmpty_iff] using h
      · intro c hc
        exact hacc c (by simpa using hc)
  | cons c cs ih =>
    intro acc hacc w hw
    by_cases hc : c.isWhitespace
    · by_cases h : acc.isEmpty
      · rw [pySplitGo] at hw
        simp [hc, h] at hw
        exact ih [] (by simp) w hw
      · rw [pySplitGo] at hw
        simp [hc, h] at hw
        rcases hw with hw | hw
        · subst hw
          constructor
          · simpa [List.isEmpty_iff] using h
          · intro d hd
            exact hacc d (by simpa using hd)
        · exact ih [] (by simp) w hw
    · rw [pySplitGo] at hw
      simp [hc] at hw
      refine ih (c :: acc) ?_ w hw
      intro d hd
      rcases List.mem_cons.mp hd with h | h
      · subst h
        simpa using hc
      · exact hacc d h

theorem pySplitL_joinL (l : List (List Char)) :
    pySplitL (joinL l) = (l.map pySplitL).flatten := by
  induction l with
  | nil => simp [joinL, pySplitL, pySplitGo]
  | cons w ws ih =>
    cases ws with
    | nil => simp [joinL]
    | cons v vs =>
      show pySplitL (w ++ ' ' :: joinL (v :: vs)) = _
      rw [pySplitL, pySplitGo_append_space]
      have h2 : pySplitGo [] (joinL (v :: vs)) = (List.map pySplitL (v :: vs)).flatten := ih
      rw [h2]
      simp [pySplitL]

theorem data_mk (l : List Char) : (String.mk l).data = l := rfl

theorem pySplit_joinWords (ws : List String) :
    pySplit (joinWords ws) = (ws.map pySplit).flatten := by
  rw [pySplit, joinWords, data_mk, pySplitL_joinL, List.map_flatten, List.map_map, List.map_map]
  rfl

theorem pySplit_good (s w : String) (hw : w ∈ pySplit s) :
    w.data ≠ [] ∧ ∀ c ∈ w.data, c.isWhitespace = false := by
  rw [pySplit] at hw
  rcases List.mem_map.mp hw with ⟨l, hl, hmk⟩
  have := pySplitGo_words_good s.data [] (by simp) l hl
  rw [← hmk]
  exact this

theorem pySplit_single (s w : String) (hw : w ∈ pySplit s) : pySplit w = [w] := by
  obtain ⟨hne, hgood⟩ := pySplit_good s w hw
  rw [pySplit, pySplitL, pySplitGo_word w.data hgood []]
  simp [List.isEmpty_iff, hne]

theorem wordCount_joinWords (ws : List String) :
    wordCount (joinWords ws) = (ws.map wordCount).sum := by
  rw [wordCount, pySplit_joinWords, List.length_flatten, List.map_map]
  rfl

theorem sum_map_insertIdx (g : String → ℕ) (x : String) :
    ∀ (l : List String) (i : ℕ), i ≤ l.length →
      ((l.insertIdx i x).map g).sum = g x + (l.map g).sum := by
  intro l
  induction l with
  | nil =>
    intro i hi
    have h0 : i = 0 := Nat.le_zero.mp hi
    subst h0
    simp
  | cons a as ih =>
    intro i hi
    cases i with
    | zero => simp
    | succ j =>
      rw [List.insertIdx_succ_cons]
      have hj : j ≤ as.length := by simpa using hi
      simp [ih j hj]
      omega

theorem flatMap_singleton_cast (l : List ℕ) :
    (l.flatMap fun a => [(a : ℚ)]) = l.map (Nat.cast : ℕ → ℚ) := by
  induction l with
  | nil => rfl
  | cons a t ih => simp [List.flatMap_cons, ih]

theorem analyze_eq_popVariance_counts (L : List ℕ) :
    (if L.isEmpty then (0 : ℚ)
     else (L.map (fun x => ((x : ℚ) - (L.sum : ℚ) / L.length) ^ 2)).sum / L.length) =
    popVariance (natsToRats L) := by
  cases L with
  | nil => simp [popVariance, listMean, natsToRats]
  | cons a l =>
    rw [popVariance, listMean, listMean, natsToRats]
    simp only [List.isEmpty_cons, Bool.false_eq_true, if_false, List.map_map,
      List.length_map]
    rw [← Nat.cast_list_sum]
    simp [flatMap_singleton_cast, List.map_map, Function.comp]

/-- C1: `analyze_burstiness` returns the population variance (divide by `N`,
not `N - 1`) of the per-sentence whitespace-delimited word counts, returns
0 when segmentation yields zero sentences, and on sentences with word
counts `[5, 5, 5]` returns 0 while on `[2, 8]` it returns 9. -/
theorem analyze_burstiness_is_population_variance :
    (∀ sents : List String,
        analyze_burstiness sents = popVariance (natsToRats (sents.map wordCount))) ∧
    analyze_burstiness [] = 0 ∧
    analyze_burstiness ["v w x y z", "v w x y z", "v w x y z"] = 0 ∧
    analyze_burstiness ["a b", "a b c d e f g h"] = 9 := by
  refine ⟨?_, rfl, ?_, ?_⟩
  · intro sents
    rw [← analyze_eq_popVariance_counts]
    rfl
  · have hc : List.map wordCount ["v w x y z", "v w x y z", "v w x y z"] = [5, 5, 5] := by
      decide
    rw [analyze_burstiness.eq_1]
    rw [hc]
    norm_num
  · have hc : List.map wordCount ["a b", "a b c d e f g h"] = [2, 8] := by decide
    rw [analyze_burstiness.eq_1]
    rw [hc]
    norm_num

/-- C9: `analyze_burstiness` is non-negative for every input segmentation,
being a mean of squared deviations (or the defined value 0). -/
theorem analyze_burstiness_nonneg (sents : List String) :
    0 ≤ analyze_burstiness sents := by
  simp only [analyze_burstiness]
  by_cases h : (sents.map wordCount).isEmpty
  · simp [h]
  · simp only [h, Bool.false_eq_true, if_false]
    apply div_nonneg
    · apply List.sum_nonneg
      intro x hx
      rcases List.mem_map.mp hx with ⟨n, _, rfl⟩
      positivity
    · positivity

/-- C6: on empty input (whose segmentation is empty), `process` returns the
empty humanized text with all three metrics 0, and `analyze_burstiness` of
the empty segmentation is 0; the empty input is a defined case, not an
error. -/
theorem process_empty_input (seg : String → List String) (draws : Nat → SentDraw)
    (coins : Nat → Bool) (h : seg "" = []) :
    process seg draws coins "" =
      { humanized := "",
        metrics := { initial_burstiness := 0, final_burstiness := 0, improvement := 0 } } ∧
    analyze_burstiness (seg "") = 0 := by
  have hana : analyze_burstiness [] = 0 := rfl
  have hinj : inject_linguistic_noise draws [] = "" := rfl
  have hopt : optimize_rhythm coins "" [] = "" := rfl
  have hr : round2 0 = 0 := by norm_num [round2, rhe]
  constructor
  · simp only [process, h, hinj, hopt, hana, sub_zero, hr]
  · rw [h, hana]

/-- Witness for C6 at the concrete segmenter that maps every text to the
empty sentence list. -/
theorem process_empty_input_witness :
    process (fun _ => []) (fun _ => ⟨0, 0, false, 0, 0⟩) (fun _ => false) "" =
      { humanized := "",
        metrics := { initial_burstiness := 0, final_burstiness := 0, improvement := 0 } } ∧
    analyze_burstiness ((fun _ => ([] : List String)) "") = 0 :=
  process_empty_input (fun _ => []) (fun _ => ⟨0, 0, false, 0, 0⟩) (fun _ => false) rfl

theorem optLoop_merge (coins : Nat → Bool) (i : Nat) (s t : String) (rest : List String)
    (h1 : wordCount (pyTrim s) < 10) (h2 : wordCount t < 10) (h3 : coins i = true) :
    optLoop coins i (s :: t :: rest) =
      (rstripDots (pyTrim s) ++ ", and " ++ pyTrim t) :: optLoop coins (i + 2) rest := by
  simp [optLoop, h1, h2, h3]

theorem optLoop_no_merge (coins : Nat → Bool) (i : Nat) (s t : String) (rest : List String)
    (h : ¬(wordCount (pyTrim s) < 10 ∧ wordCount t < 10)) :
    optLoop coins i (s :: t :: rest) = pyTrim s :: optLoop coins (i + 1) (t :: rest) := by
  by_cases h1 : wordCount (pyTrim s) < 10
  · have h2 : ¬ wordCount t < 10 := fun hh => h ⟨h1, hh⟩
    simp [optLoop, h1, h2]
  · simp [optLoop, h1]

theorem optLoop_coin_false (coins : Nat → Bool) (i : Nat) (s t : String) (rest : List String)
    (h : coins i = false) :
    optLoop coins i (s :: t :: rest) = pyTrim s :: optLoop coins (i + 1) (t :: rest) := by
  simp [optLoop, h]

/-- C7: `optimize_rhythm` returns its input text unchanged whenever the
segmentation has fewer than 2 sentences (so a single-sentence text comes
back untouched), and a merge emits its pair as one unit and recurses only
on the sentences after the pair, so a merged pair can never merge again in
the same pass. -/
theorem optimize_rhythm_short_input_and_nonrecursive_merge :
    (∀ (coins : Nat → Bool) (text : String) (sents : List String),
        sents.length < 2 → optimize_rhythm coins text sents = text) ∧
    (∀ (coins : Nat → Bool) (i : Nat) (s t : String) (rest : List String),
        wordCount (pyTrim s) < 10 → wordCount t < 10 → coins i = true →
        optLoop coins i (s :: t :: rest) =
          (rstripDots (pyTrim s) ++ ", and " ++ pyTrim t) :: optLoop coins (i + 2) rest) := by
  constructor
  · intro coins text sents h
    simp [optimize_rhythm, h]
  · intro coins i s t rest h1 h2 h3
    exact optLoop_merge coins i s t rest h1 h2 h3

/-- Witness for C7: a one-sentence segmentation is returned unchanged, and a
concrete merge recurses past the merged pair. -/
theorem optimize_rhythm_short_input_and_nonrecursive_merge_witness :
    optimize_rhythm (fun _ => true) "Only one sentence." ["Only one sentence."] =
      "Only one sentence." ∧
    optLoop (fun _ => true) 0 ["One two. ", "Three four.", "Five six seven."] =
      (rstripDots (pyTrim "One two. ") ++ ", and " ++ pyTrim "Three four.") ::
        optLoop (fun _ => true) (0 + 2) ["Five six seven."] :=
  ⟨optimize_rhythm_short_input_and_nonrecursive_merge.1 (fun _ => true) "Only one sentence."
      ["Only one sentence."] (by decide),
   optimize_rhythm_short_input_and_nonrecursive_merge.2 (fun _ => true) 0 "One two. "
      "Three four." ["Five six seven."] (by decide) (by decide) rfl⟩

/-- C8: `process` is a pure function of the segmentation, the random
streams and the input text: for a fixed seed (hence fixed draw streams) and
fixed input and segmentation, two runs produce identical results. -/
theorem process_deterministic_for_fixed_seed (seg : String → List String)
    (draws1 draws2 : Nat → SentDraw) (coins1 coins2 : Nat → Bool) (text1 text2 : String)
    (hd : draws1 = draws2) (hc : coins1 = coins2) (ht : text1 = text2) :
    process seg draws1 coins1 text1 = process seg draws2 coins2 text2 := by
  subst hd
  subst hc
  subst ht
  rfl

/-- Witness for C8 at a concrete segmenter, streams and text. -/
theorem process_deterministic_for_fixed_seed_witness :
    process (fun s => [s]) (fun _ => ⟨0, 0, false, 0, 0⟩) (fun _ => false) "The cat sat." =
      process (fun s => [s]) (fun _ => ⟨0, 0, false, 0, 0⟩) (fun _ => false) "The cat sat." :=
  process_deterministic_for_fixed_seed (fun s => [s]) (fun _ => ⟨0, 0, false, 0, 0⟩)
    (fun _ => ⟨0, 0, false, 0, 0⟩) (fun _ => false) (fun _ => false) "The cat sat."
    "The cat sat." rfl rfl rfl

/-- C4: a pair of adjacent sentences is merged only when both have
strictly fewer than 10 whitespace-delimited words AND the 0.3 coin lands
true: if either sentence has 10 or more words the pair is emitted
unmerged for every coin, and if the coin is false the pair is emitted
unmerged regardless of the word counts.  A merge strips trailing periods
from the current sentence, appends the literal ", and " and the next
sentence's text as one emitted unit.  Two 9-word sentences are eligible
(merged on a true coin, left unmerged on a false coin); two 10-word
sentences are never merged. -/
theorem optimize_rhythm_merge_threshold :
    (∀ (coins : Nat → Bool) (i : Nat) (s t : String) (rest : List String),
        wordCount (pyTrim s) < 10 → wordCount t < 10 → coins i = true →
        optLoop coins i (s :: t :: rest) =
          (rstripDots (pyTrim s) ++ ", and " ++ pyTrim t) :: optLoop coins (i + 2) rest) ∧
    (∀ (coins : Nat → Bool) (i : Nat) (s t : String) (rest : List String),
        ¬(wordCount (pyTrim s) < 10 ∧ wordCount t < 10) →
        optLoop coins i (s :: t :: rest) = pyTrim s :: optLoop coins (i + 1) (t :: rest)) ∧
    (∀ (coins : Nat → Bool) (i : Nat) (s t : String) (rest : List String),
        coins i = false →
        optLoop coins i (s :: t :: rest) = pyTrim s :: optLoop coins (i + 1) (t :: rest)) ∧
    optimize_rhythm (fun _ => true) "orig"
        ["One two three four five six seven eight nine.",
          "Alpha beta gamma delta epsilon zeta eta theta iota."] =
      "One two three four five six seven eight nine, and Alpha beta gamma delta epsilon zeta eta theta iota." ∧
    optimize_rhythm (fun _ => false) "orig"
        ["One two three four five six seven eight nine.",
          "Alpha beta gamma delta epsilon zeta eta theta iota."] =
      "One two three four five six seven eight nine. Alpha beta gamma delta epsilon zeta eta theta iota." ∧
    (∀ coins : Nat → Bool,
        optimize_rhythm coins "orig"
            ["One two three four five six seven eight nine ten.",
              "Alpha beta gamma delta epsilon zeta eta theta iota kappa."] =
          "One two three four five six seven eight nine ten. Alpha beta gamma delta epsilon zeta eta theta iota kappa.") := by
  refine ⟨optLoop_merge, optLoop_no_merge, optLoop_coin_false, by decide, by decide, ?_⟩
  intro coins
  have h := optLoop_no_merge coins 0
      "One two three four five six seven eight nine ten."
      "Alpha beta gamma delta epsilon zeta eta theta iota kappa." [] (by decide)
  rw [optimize_rhythm.eq_1]
  norm_num
  rw [h]
  rw [show optLoop coins (0 + 1) ["Alpha beta gamma delta epsilon zeta eta theta iota kappa."] =
      [pyTrim "Alpha beta gamma delta epsilon zeta eta theta iota kappa."] from rfl]
  decide

/-- Witness for C4: the merge rule, the too-long no-merge rule and the
failed-coin no-merge rule applied at concrete sentences, plus the 10-word
pair at a concrete coin stream. -/
theorem optimize_rhythm_merge_threshold_witness :
    optLoop (fun _ => true) 0 ("Aa bb cc. " :: "Dd ee." :: []) =
      (rstripDots (pyTrim "Aa bb cc. ") ++ ", and " ++ pyTrim "Dd ee.") ::
        optLoop (fun _ => true) (0 + 2) [] ∧
    optLoop (fun _ => false) 3
        ("One two three four five six seven eight nine ten." :: "Short one." :: []) =
      pyTrim "One two three four five six seven eight nine ten." ::
        optLoop (fun _ => false) (3 + 1) ["Short one."] ∧
    optLoop (fun _ => false) 0 ("Aa bb cc. " :: "Dd ee." :: []) =
      pyTrim "Aa bb cc. " :: optLoop (fun _ => false) (0 + 1) ["Dd ee."] ∧
    optimize_rhythm (fun _ => false) "orig"
        ["One two three four five six seven eight nine ten.",
          "Alpha beta gamma delta epsilon zeta eta theta iota kappa."] =
      "One two three four five six seven eight nine ten. Alpha beta gamma delta epsilon zeta eta theta iota kappa." :=
  ⟨optimize_rhythm_merge_threshold.1 (fun _ => true) 0 "Aa bb cc. " "Dd ee." [] (by decide)
      (by decide) rfl,
   optimize_rhythm_merge_threshold.2.1 (fun _ => false) 3
      "One two three four five six seven eight nine ten." "Short one." [] (by decide),
   optimize_rhythm_merge_threshold.2.2.1 (fun _ => false) 0 "Aa bb cc. " "Dd ee." [] rfl,
   optimize_rhythm_merge_threshold.2.2.2.2.2 (fun _ => false)⟩

/-- C2 counterexample: the sentence "Furthermores matter greatly." has
leading token "Furthermores", which is not an opener (with or without a
trailing comma), yet `inject_linguistic_noise` rewrites it, because the
code matches `startswith` string prefixes rather than whole tokens. -/
theorem transition_substitution_not_token_anchored :
    (pySplit "Furthermores matter greatly.").head? = some "Furthermores" ∧
    ("Furthermores" ∉ (["Furthermore", "Moreover", "Additionally", "However"] : List String)) ∧
    ("Furthermores," ∉ (["Furthermore,", "Moreover,", "Additionally,", "However,"] : List String)) ∧
    inject_linguistic_noise (fun _ => ⟨0, 0, false, 0, 0⟩) ["Furthermores matter greatly."] =
      "Plus, s matter greatly." ∧
    "Plus, s matter greatly." ≠ "Furthermores matter greatly." := by
  refine ⟨by decide, by decide, by decide, by decide, by decide⟩

theorem isPrefixOf_head_ne (c1 c2 : Char) (w1 w2 l : List Char) (hne : c1 ≠ c2)
    (h : (c2 :: w2).isPrefixOf l = true) : (c1 :: w1).isPrefixOf l = false := by
  cases l with
  | nil => simp [List.isPrefixOf] at h
  | cons a t =>
    simp [List.isPrefixOf] at h ⊢
    intro hc
    exact absurd (hc.trans h.1.symm) hne

theorem pyStartsWith_false_of_head_ne (s w1 w2 : String) (c1 c2 : Char)
    (r1 r2 : List Char) (h1 : w1.data = c1 :: r1) (h2 : w2.data = c2 :: r2)
    (hne : c1 ≠ c2) (h : pyStartsWith s w2 = true) : pyStartsWith s w1 = false := by
  rw [pyStartsWith, h1]
  rw [pyStartsWith, h2] at h
  exact isPrefixOf_head_ne c1 c2 r1 r2 s.data hne h

theorem reSub_eq (w choice s : String) :
    reSub w choice s = choice ++ " " ++ String.mk (dropOpener w s) := by
  apply String.ext
  have hsp : (" " : String).data = [' '] := by decide
  simp [reSub, String.data_append, data_mk, hsp]

/-- C2 (amended): a sentence undergoes transition substitution iff its text
begins with one of the opener strings "Furthermore"/"Moreover"/
"Additionally" (addition) or "However" (contrast) as a character prefix —
not necessarily as a whole leading token; the matched opener, an optional
following comma and the following whitespace run are replaced by a
uniformly-drawn variant of the corresponding list plus a single space;
matching is anchored at the sentence start, and sentences without such a
prefix are untouched. -/
theorem transition_substitution_string_anchored :
    (∀ (dAdd dCon : Nat) (s : String),
        hasTransitionTrigger s = false → transitionStep dAdd dCon s = s) ∧
    (∀ (dAdd dCon : Nat) (s : String), pyStartsWith s "Furthermore" = true →
        transitionStep dAdd dCon s =
          transition_addition.getD (dAdd % transition_addition.length) "" ++ " " ++
            String.mk (dropOpener "Furthermore" s)) ∧
    (∀ (dAdd dCon : Nat) (s : String), pyStartsWith s "Moreover" = true →
        transitionStep dAdd dCon s =
          transition_addition.getD (dAdd % transition_addition.length) "" ++ " " ++
            String.mk (dropOpener "Moreover" s)) ∧
    (∀ (dAdd dCon : Nat) (s : String), pyStartsWith s "Additionally" = true →
        transitionStep dAdd dCon s =
          transition_addition.getD (dAdd % transition_addition.length) "" ++ " " ++
            String.mk (dropOpener "Additionally" s)) ∧
    (∀ (dAdd dCon : Nat) (s : String), pyStartsWith s "However" = true →
        transitionStep dAdd dCon s =
          transition_contrast.getD (dCon % transition_contrast.length) "" ++ " " ++
            String.mk (dropOpener "However" s)) ∧
    (∀ dAdd : Nat,
        transition_addition.getD (dAdd % transition_addition.length) "" ∈
          transition_addition) ∧
    (∀ dCon : Nat,
        transition_contrast.getD (dCon % transition_contrast.length) "" ∈
          transition_contrast) ∧
    (∀ dAdd dCon : Nat,
        transitionStep dAdd dCon "We note Furthermore, this matters." =
          "We note Furthermore, this matters.") := by
  refine ⟨?_, ?_, ?_, ?_, ?_, ?_, ?_, ?_⟩
  · intro dAdd dCon s h
    rw [hasTransitionTrigger] at h
    simp only [Bool.or_eq_false_iff] at h
    obtain ⟨⟨⟨h1, h2⟩, h3⟩, h4⟩ := h
    simp [transitionStep, h1, h2, h3, h4]
  · intro dAdd dCon s h
    simp only [transitionStep, h, if_true]
    exact reSub_eq "Furthermore" _ s
  · intro dAdd dCon s h
    have hF : pyStartsWith s "Furthermore" = false :=
      pyStartsWith_false_of_head_ne s "Furthermore" "Moreover" 'F' 'M'
        "urthermore".data "oreover".data (by decide) (by decide) (by decide) h
    simp only [transitionStep, h, hF, Bool.false_eq_true, if_false, if_true]
    exact reSub_eq "Moreover" _ s
  · intro dAdd dCon s h
    have hF : pyStartsWith s "Furthermore" = false :=
      pyStartsWith_false_of_head_ne s "Furthermore" "Additionally" 'F' 'A'
        "urthermore".data "dditionally".data (by decide) (by decide) (by decide) h
    have hM : pyStartsWith s "Moreover" = false :=
      pyStartsWith_false_of_head_ne s "Moreover" "Additionally" 'M' 'A'
        "oreover".data "dditionally".data (by decide) (by decide) (by decide) h
    simp only [transitionStep, h, hF, hM, Bool.false_eq_true, if_false, if_true]
    exact reSub_eq "Additionally" _ s
  · intro dAdd dCon s h
    have hF : pyStartsWith s "Furthermore" = false :=
      pyStartsWith_false_of_head_ne s "Furthermore" "However" 'F' 'H'
        "urthermore".data "owever".data (by decide) (by decide) (by decide) h
    have hM : pyStartsWith s "Moreover" = false :=
      pyStartsWith_false_of_head_ne s "Moreover" "However" 'M' 'H'
        "oreover".data "owever".data (by decide) (by decide) (by decide) h
    have hA : pyStartsWith s "Additionally" = false :=
      pyStartsWith_false_of_head_ne s "Additionally" "However" 'A' 'H'
        "dditionally".data "owever".data (by decide) (by decide) (by decide) h
    simp only [transitionStep, h, hF, hM, hA, Bool.false_eq_true, if_false, if_true]
    exact reSub_eq "However" _ s
  · intro dAdd
    have h : dAdd % transition_addition.length < transition_addition.length :=
      Nat.mod_lt dAdd (by decide)
    rw [List.getD_eq_getElem _ _ h]
    exact List.getElem_mem h
  · intro dCon
    have h : dCon % transition_contrast.length < transition_contrast.length :=
      Nat.mod_lt dCon (by decide)
    rw [List.getD_eq_getElem _ _ h]
    exact List.getElem_mem h
  · intro dAdd dCon
    have h1 : pyStartsWith "We note Furthermore, this matters." "Furthermore" = false := by
      decide
    have h2 : pyStartsWith "We note Furthermore, this matters." "Moreover" = false := by decide
    have h3 : pyStartsWith "We note Furthermore, this matters." "Additionally" = false := by
      decide
    have h4 : pyStartsWith "We note Furthermore, this matters." "However" = false := by decide
    simp [transitionStep, h1, h2, h3, h4]

/-- Witness for C2 (amended): an untriggered sentence passes through at a
concrete draw, and each of the four openers fires as a string prefix at a
concrete sentence (including a non-token-aligned prefix) and draw. -/
theorem transition_substitution_string_anchored_witness :
    transitionStep 1 2 "The dog ran away." = "The dog ran away." ∧
    transitionStep 0 0 "Furthermore, this matters." =
      transition_addition.getD (0 % transition_addition.length) "" ++ " " ++
        String.mk (dropOpener "Furthermore" "Furthermore, this matters.") ∧
    transitionStep 1 0 "Moreover, cats sleep." =
      transition_addition.getD (1 % transition_addition.length) "" ++ " " ++
        String.mk (dropOpener "Moreover" "Moreover, cats sleep.") ∧
    transitionStep 2 0 "Additionallys is no word." =
      transition_addition.getD (2 % transition_addition.length) "" ++ " " ++
        String.mk (dropOpener "Additionally" "Additionallys is no word.") ∧
    transitionStep 0 3 "However, it works." =
      transition_contrast.getD (3 % transition_contrast.length) "" ++ " " ++
        String.mk (dropOpener "However" "However, it works.") :=
  ⟨transition_substitution_string_anchored.1 1 2 "The dog ran away." (by decide),
   transition_substitution_string_anchored.2.1 0 0 "Furthermore, this matters." (by decide),
   transition_substitution_string_anchored.2.2.1 1 0 "Moreover, cats sleep." (by decide),
   transition_substitution_string_anchored.2.2.2.1 2 0 "Additionallys is no word." (by decide),
   transition_substitution_string_anchored.2.2.2.2.1 0 3 "However, it works." (by decide)⟩

theorem pySplit_head_joinWords (w : String) (rest : List String) (hw : pySplit w = [w]) :
    (pySplit (joinWords (w :: rest))).head? = some w := by
  rw [pySplit_joinWords]
  simp [hw]

theorem fillerStep_fires (dIdx dChoice : Nat) (s : String) (h5 : 5 < (pySplit s).length) :
    fillerStep true dIdx dChoice s =
      joinWords ((pySplit s).insertIdx (fillerIdx dIdx (pySplit s).length)
        (filler_words.getD (dChoice % filler_words.length) "")) := by
  simp [fillerStep, h5]

theorem fillerStep_keeps_first_word (dIdx dChoice : Nat) (s : String)
    (h5 : 5 < (pySplit s).length) :
    (pySplit (fillerStep true dIdx dChoice s)).head? = (pySplit s).head? := by
  rw [fillerStep_fires dIdx dChoice s h5]
  obtain ⟨w0, tail, hcons⟩ : ∃ w0 tail, pySplit s = w0 :: tail := by
    cases hps : pySplit s with
    | nil => rw [hps] at h5; simp at h5
    | cons a l => exact ⟨a, l, rfl⟩
  have hw0 : pySplit w0 = [w0] := pySplit_single s w0 (by rw [hcons]; simp)
  rw [hcons]
  have hidx : fillerIdx dIdx (w0 :: tail).length = (dIdx % ((w0 :: tail).length - 1)) + 1 := by
    rw [fillerIdx]
    omega
  rw [hidx, List.insertIdx_succ_cons]
  rw [pySplit_head_joinWords w0 _ hw0]
  simp

/-- C3: filler insertion fires per sentence (on the probability-0.1 draw)
only when the sentence has more than 5 whitespace-delimited words; the
insertion index drawn by `randint(1, n - 1)` is never 0 (it lies between 1
and `n - 1`); and whenever filler insertion fires, for any random draw, the
first word of the output sentence equals the first word of the input
sentence. -/
theorem filler_insertion_never_first_word :
    (∀ (dIdx dChoice : Nat) (s : String), fillerStep false dIdx dChoice s = s) ∧
    (∀ (dIdx dChoice : Nat) (s : String),
        (pySplit s).length ≤ 5 → fillerStep true dIdx dChoice s = s) ∧
    (∀ d n : Nat, 5 < n → 1 ≤ fillerIdx d n ∧ fillerIdx d n ≤ n - 1) ∧
    (∀ (dIdx dChoice : Nat) (s : String), 5 < (pySplit s).length →
        (pySplit (fillerStep true dIdx dChoice s)).head? = (pySplit s).head?) := by
  refine ⟨?_, ?_, ?_, fillerStep_keeps_first_word⟩
  · intro dIdx dChoice s
    rfl
  · intro dIdx dChoice s h
    simp [fillerStep, Nat.not_lt.mpr h]
  · intro d n h
    refine ⟨by rw [fillerIdx]; omega, ?_⟩
    rw [fillerIdx]
    have := Nat.mod_lt d (show 0 < n - 1 by omega)
    omega

/-- Witness for C3 at concrete sentences and draws. -/
theorem filler_insertion_never_first_word_witness :
    fillerStep false 7 3 "Any text here." = "Any text here." ∧
    fillerStep true 2 1 "One two three." = "One two three." ∧
    (1 ≤ fillerIdx 9 7 ∧ fillerIdx 9 7 ≤ 7 - 1) ∧
    (pySplit (fillerStep true 0 4 "One two three four five six.")).head? =
      (pySplit "One two three four five six.").head? :=
  ⟨filler_insertion_never_first_word.1 7 3 "Any text here.",
   filler_insertion_never_first_word.2.1 2 1 "One two three." (by decide),
   filler_insertion_never_first_word.2.2.1 9 7 (by decide),
   filler_insertion_never_first_word.2.2.2 0 4 "One two three four five six." (by decide)⟩

theorem wordCount_words_one (s w : String) (hw : w ∈ pySplit s) : wordCount w = 1 := by
  rw [wordCount, pySplit_single s w hw]
  rfl

theorem wordCount_joinWords_insert (s f : String) (idx : Nat)
    (hidx : idx ≤ (pySplit s).length) :
    wordCount (joinWords ((pySplit s).insertIdx idx f)) =
      (pySplit s).length + wordCount f := by
  rw [wordCount_joinWords, sum_map_insertIdx wordCount f (pySplit s) idx hidx]
  have hones : (pySplit s).map wordCount = (pySplit s).map (fun _ => 1) :=
    List.map_congr_left (fun w hw => wordCount_words_one s w hw)
  rw [hones, List.map_const']
  simp [List.sum_replicate]
  omega

/-- C10: the filler vocabulary contains the two-word entries "kind of" and
"sort of"; when filler insertion fires on a sentence with more than 5
words, the output word count is the input count plus the word count of the
chosen filler — so it grows by 2, not 1, for those entries. -/
theorem filler_insertion_word_count_growth :
    ("kind of" ∈ filler_words ∧ "sort of" ∈ filler_words ∧
      wordCount "kind of" = 2 ∧ wordCount "sort of" = 2) ∧
    (∀ (dIdx dChoice : Nat) (s : String), 5 < (pySplit s).length →
        wordCount (fillerStep true dIdx dChoice s) =
          (pySplit s).length +
            wordCount (filler_words.getD (dChoice % filler_words.length) "")) ∧
    wordCount (fillerStep true 0 4 "One two three four five six.") = 8 := by
  refine ⟨by decide, ?_, by decide⟩
  intro dIdx dChoice s h5
  rw [fillerStep_fires dIdx dChoice s h5]
  apply wordCount_joinWords_insert
  rw [fillerIdx]
  have := Nat.mod_lt dIdx (show 0 < (pySplit s).length - 1 by omega)
  omega

/-- Witness for C10: inserting "kind of" (vocabulary index 4) into a 6-word
sentence yields 8 words. -/
theorem filler_insertion_word_count_growth_witness :
    wordCount (fillerStep true 3 4 "Alpha beta gamma delta epsilon zeta.") =
      (pySplit "Alpha beta gamma delta epsilon zeta.").length +
        wordCount (filler_words.getD (4 % filler_words.length) "") :=
  filler_insertion_word_count_growth.2.1 3 4 "Alpha beta gamma delta epsilon zeta." (by decide)

theorem abs_rhe_sub_le (q : ℚ) : |(rhe q : ℚ) - q| ≤ 1 / 2 := by
  have h0 : (⌊q⌋ : ℚ) ≤ q := Int.floor_le q
  have h1 : q < ⌊q⌋ + 1 := Int.lt_floor_add_one q
  rw [rhe]
  split_ifs with hlt hgt he
  · rw [abs_of_nonpos (by linarith)]
    linarith
  · push_cast
    rw [abs_of_nonneg (by linarith)]
    linarith
  · rw [abs_of_nonpos (by linarith)]
    linarith [not_lt.mp hgt]
  · push_cast
    rw [abs_of_nonneg (by linarith)]
    linarith [not_lt.mp hlt]

theorem round2_sub_round2_le (a b : ℚ) :
    |round2 (a - b) - (round2 a - round2 b)| ≤ 1 / 100 := by
  have hA := abs_rhe_sub_le (100 * a)
  have hB := abs_rhe_sub_le (100 * b)
  have hD := abs_rhe_sub_le (100 * (a - b))
  obtain ⟨hA1, hA2⟩ := abs_le.mp hA
  obtain ⟨hB1, hB2⟩ := abs_le.mp hB
  obtain ⟨hD1, hD2⟩ := abs_le.mp hD
  set k : ℤ := rhe (100 * (a - b)) - rhe (100 * a) + rhe (100 * b) with hk
  have hkq : |(k : ℚ)| ≤ 3 / 2 := by
    have hsplit : (k : ℚ) =
        ((rhe (100 * (a - b)) : ℚ) - 100 * (a - b)) - ((rhe (100 * a) : ℚ) - 100 * a) +
          ((rhe (100 * b) : ℚ) - 100 * b) := by
      rw [hk]
      push_cast
      ring
    rw [hsplit]
    rw [abs_le]
    constructor <;> linarith
  have hk1 : |k| ≤ 1 := by
    have hcast : ((|k| : ℤ) : ℚ) ≤ 3 / 2 := by
      rw [Int.cast_abs]
      exact hkq
    have hfl : |k| ≤ ⌊(3 / 2 : ℚ)⌋ := Int.le_floor.mpr hcast
    have h32 : ⌊(3 / 2 : ℚ)⌋ = 1 := by
      rw [Int.floor_eq_iff]
      norm_num
    omega
  have hval : round2 (a - b) - (round2 a - round2 b) = (k : ℚ) / 100 := by
    rw [round2, round2, round2, hk]
    push_cast
    ring
  rw [hval, abs_div]
  have habs : |(k : ℚ)| ≤ 1 := by
    have : ((|k| : ℤ) : ℚ) ≤ 1 := by exact_mod_cast hk1
    rwa [Int.cast_abs] at this
  rw [abs_of_pos (show (0 : ℚ) < 100 by norm_num)]
  linarith

/-- C5: in the Result returned by `process`, `improvement` always equals
`final_burstiness - initial_burstiness` within a rounding tolerance of
0.01, all three metrics being rounded to 2 decimals (modelled in exact
rational arithmetic). -/
theorem process_improvement_metric_consistent (seg : String → List String)
    (draws : Nat → SentDraw) (coins : Nat → Bool) (text : String) :
    |(process seg draws coins text).metrics.improvement -
        ((process seg draws coins text).metrics.final_burstiness -
          (process seg draws coins text).metrics.initial_burstiness)| ≤ 1 / 100 := by
  simp only [process]
  exact round2_sub_round2_le _ _

end HumanizeAI
